import Mathlib

/-!
Verification of the task queue / scheduler / lock / driver reliability layer of
the chatgpt-docker-puppeteer repository.

The JavaScript source is shallowly embedded:
* JSON ISO timestamp strings that the code feeds through `Date.parse` /
  `new Date(...)` comparisons are represented by their epoch-millisecond
  integer values (`Int`); `meta.created_at`, which the code compares with
  `localeCompare`, stays a `String` compared lexicographically.
* The filesystem slices each component touches are explicit state values
  (functions from path to content, or association lists for a directory).
* `fs.writeFileSync(lock, data, \x7b flag: 'wx' \x7d)` is exclusive create:
  it succeeds exactly when no file is present at the path.
* Asynchronous JS functions are modelled as pure state transformers; thrown
  exceptions become `Except` errors; unbounded `while (true)` loops take a
  fuel argument and partial-correctness statements are proved.
* JS dynamic values that the driver code compares with `>` / `>=` against
  numbers (an `undefined` config field, an unawaited `Promise`) are modelled
  by `JsVal` together with ECMAScript coercion to a number (`NaN` for both,
  and every comparison against `NaN` is false).
-/

namespace Agent

/- ==========================================================================
   Task data model (src/core/schemas.js, validated shape)
========================================================================== -/

/-- Task status enum of `StateSchema.status` in src/core/schemas.js. -/
inductive Status where
  | PENDING | RUNNING | DONE | FAILED | PAUSED | SKIPPED | STALLED
deriving DecidableEq, Repr

/-- One entry of the append-only `state.history` log. -/
structure HistoryEvent where
  ts : String
  event : String
  msg : Option String := none
deriving DecidableEq, Repr

structure TaskMeta where
  id : String
  priority : Int
  /-- ISO creation timestamp; the scheduler compares it with `localeCompare`,
  modelled as lexicographic `String` order. -/
  created_at : String
deriving DecidableEq, Repr

structure TaskPayload where
  system_message : String := ""
  user_message : String
deriving DecidableEq, Repr

structure TaskSpec where
  target : String := "chatgpt"
  model : String := "gpt-5"
  payload : TaskPayload
deriving DecidableEq, Repr

structure TaskPolicy where
  dependencies : List String := []
  /-- `policy.execute_after`, epoch milliseconds of the stored datetime;
  `none` models JSON `null` / absent (falsy in the scheduler check). -/
  execute_after : Option Int := none
deriving DecidableEq, Repr

structure TaskState where
  status : Status := .PENDING
  attempts : Nat := 0
  /-- epoch milliseconds of the stored ISO string; `none` models `null`. -/
  started_at : Option Int := none
  last_error : Option String := none
  history : List HistoryEvent := []
deriving DecidableEq, Repr

structure Task where
  meta : TaskMeta
  spec : TaskSpec
  policy : TaskPolicy
  state : TaskState
deriving DecidableEq, Repr

/- ==========================================================================
   Configuration (src/core/config.js DEFAULTS, user-overridable)
========================================================================== -/

structure Config where
  IDLE_SLEEP : Int := 3000
  TASK_TIMEOUT_MS : Int := 30 * 60 * 1000
  RUNNING_RECOVERY_MS : Int := 40 * 60 * 1000
  MAX_CONTINUATIONS : Nat := 25
deriving Repr

/-- `DEFAULTS` of src/core/config.js (the fields this development uses). -/
def DEFAULTS : Config := {}

/- ==========================================================================
   Scheduler: loadNextTask (src/infra/io.js lines 200-254)
========================================================================== -/

/-- The mutation the zombie sweep applies to a stalled RUNNING task
(io.js lines 208-210): force status FAILED, record the error, and append a
SYSTEM_RECOVERY history event. -/
def recoveredTask (nowIso : String) (t : Task) : Task :=
  { t with state :=
      { t.state with
          status := .FAILED
          last_error := some "Timeout de Recuperação (Zumbi)"
          history := t.state.history ++
            [{ ts := nowIso, event := "SYSTEM_RECOVERY",
               msg := some "Ressuscitado por inatividade" }] } }

/-- Phase 1 of `loadNextTask` (io.js lines 204-214): every task whose status is
RUNNING and whose `started_at` lies more than `RUNNING_RECOVERY_MS` in the past
is transitioned to FAILED and saved.  The saved store is the returned list. -/
def zombieSweep (cfg : Config) (now : Int) (nowIso : String)
    (tasks : List Task) : List Task :=
  tasks.map fun t =>
    if t.state.status = .RUNNING then
      match t.state.started_at with
      | some s => if now - s > cfg.RUNNING_RECOVERY_MS then recoveredTask nowIso t else t
      | none => t
    else t

/-- Result of the dependency loop of io.js lines 229-236 for one task. -/
inductive DepScan where
  | ok | blocked | parentFailed
deriving DecidableEq, Repr

/-- The dependency loop of io.js lines 229-236: walk the dependency list in
order; a missing parent sets `isBlocked` and breaks, a FAILED/SKIPPED parent
sets `parentFailed` and breaks, a parent that is not DONE sets `isBlocked`
without breaking. `blocked` is the accumulated `isBlocked` flag. -/
def scanDeps (all : List Task) : List String → Bool → DepScan
  | [], blocked => if blocked then .blocked else .ok
  | d :: ds, blocked =>
    match all.find? (fun x => x.meta.id == d) with
    | none => .blocked
    | some p =>
      if p.state.status = .FAILED ∨ p.state.status = .SKIPPED then .parentFailed
      else scanDeps all ds (blocked || decide (p.state.status ≠ .DONE))

/-- The in-place mutation of io.js lines 239-240 when a parent failed:
status SKIPPED with the recorded error (no history entry is pushed). -/
def skipTask (t : Task) : Task :=
  { t with state :=
      { t.state with
          status := .SKIPPED
          last_error := some "Dependência falhou ou foi pulada." } }

/-- Per-task decision of the eligibility filter body (io.js lines 217-247),
evaluated against the current (possibly already mutated) task array `all`. -/
inductive FilterStep where
  | eligible | dropped | skipAndSave
deriving DecidableEq, Repr

def filterStep (now : Int) (all : List Task) (t : Task) : FilterStep :=
  if t.state.status ≠ .PENDING then .dropped
  else match t.policy.execute_after with
  | some ea =>
    if ea > now then .dropped
    else filterDeps all t
  | none => filterDeps all t
where
  filterDeps (all : List Task) (t : Task) : FilterStep :=
    let deps := t.policy.dependencies
    if deps.isEmpty then .eligible
    else
      match scanDeps all deps false with
      | .parentFailed => .skipAndSave
      | .blocked => .dropped
      | .ok => .eligible

/-- Phase 2 of `loadNextTask`: `allTasks.filter(...)` where the filter body
mutates the shared array in place when it skips a task; tasks already examined
are visible to later dependency lookups in their mutated state.  Walks the
array by index, carrying the evolving array and accumulating the tasks the
filter kept (in reverse). -/
def eligGo (now : Int) : Nat → Nat → List Task → List Task →
    List Task × List Task
  | 0, _, all, elig => (all, elig.reverse)
  | fuel + 1, i, all, elig =>
    match all[i]? with
    | none => (all, elig.reverse)
    | some t =>
      match filterStep now all t with
      | .eligible => eligGo now fuel (i + 1) all (t :: elig)
      | .dropped => eligGo now fuel (i + 1) all elig
      | .skipAndSave => eligGo now fuel (i + 1) (all.set i (skipTask t)) elig

def eligPass (now : Int) (all : List Task) : List Task × List Task :=
  eligGo now all.length 0 all []

/-- `b` sorts strictly before `a` under the comparator of io.js lines 250-253:
descending priority, then ascending `created_at` (localeCompare). -/
def sortsBefore (a b : Task) : Bool :=
  if b.meta.priority ≠ a.meta.priority then b.meta.priority > a.meta.priority
  else b.meta.created_at < a.meta.created_at

/-- Head of the stable sort of io.js lines 250-253 (`[0] || null`): the first
element that no later element strictly beats. -/
def pickBest : List Task → Option Task
  | [] => none
  | t :: ts => some (ts.foldl (fun best x => if sortsBefore best x then x else best) t)

/-- `loadNextTask` (io.js lines 200-254) over the store seen as a task list.
Returns the post-pass store (all `saveTask` effects of the zombie sweep and of
dependency skipping applied) and the selected task. -/
def loadNextTask (cfg : Config) (now : Int) (nowIso : String)
    (tasks : List Task) : List Task × Option Task :=
  let swept := zombieSweep cfg now nowIso tasks
  let (all, elig) := eligPass now swept
  (all, pickBest elig)

/- ==========================================================================
   Lock manager (src/infra/io.js lines 49-57 and 259-281)
========================================================================== -/

/-- Contents of a `RUNNING_<target>.lock` file (io.js line 261). -/
structure LockData where
  taskId : String
  pid : Nat
  ts : String
deriving DecidableEq, Repr

/-- The slice of the world the lock code touches: the lock files on disk and
the OS process table consulted by `isProcessAlive` (io.js lines 49-57,
`process.kill(pid, 0)`). -/
structure LockSys where
  fs : String → Option LockData
  alive : Nat → Bool

def fsSetLock (fs : String → Option LockData) (k : String) (v : Option LockData) :
    String → Option LockData :=
  fun x => if x = k then v else fs x

/-- JavaScript `String.prototype.toLowerCase` restricted to the simple
per-character case mapping (the targets the code handles are ASCII names). -/
def jsToLowerCase (s : String) : String :=
  ⟨s.data.map Char.toLower⟩

/-- Lock file path for a target (io.js lines 260 and 279):
`RUNNING_` + `target.toLowerCase()` + `.lock`. -/
def lockPath (target : String) : String :=
  "RUNNING_" ++ jsToLowerCase target ++ ".lock"

/-- `acquireLock` (io.js lines 259-276) with an explicit recursion bound.
The exclusive create (`flag: 'wx'`) succeeds iff no lock file exists; on
failure the existing lock is read, and if its owner pid is not alive the file
is unlinked and the whole function is retried recursively.  Run sequentially
the recursion can only fire once (the retry finds the path free), so fuel 2,
supplied by `acquireLock` below, reproduces the source exactly. -/
def acquireLockFuel (selfPid : Nat) (taskId target nowTs : String) :
    Nat → LockSys → Bool × LockSys
  | 0, sys => (false, sys)
  | fuel + 1, sys =>
    let p := lockPath target
    match sys.fs p with
    | none =>
      (true, { sys with fs := fsSetLock sys.fs p (some ⟨taskId, selfPid, nowTs⟩) })
    | some l =>
      if sys.alive l.pid then (false, sys)
      else acquireLockFuel selfPid taskId target nowTs fuel
        { sys with fs := fsSetLock sys.fs p none }

def acquireLock (sys : LockSys) (selfPid : Nat) (taskId target nowTs : String) :
    Bool × LockSys :=
  acquireLockFuel selfPid taskId target nowTs 2 sys

/-- `releaseLock` (io.js lines 278-281): unconditionally unlink the target's
lock file (a missing file is not an error). -/
def releaseLock (sys : LockSys) (target : String) : LockSys :=
  { sys with fs := fsSetLock sys.fs (lockPath target) none }

/-- C1 theorem.  Lock safety and liveness on the sequential model:
(a) a live owner makes `acquireLock` fail without touching the lock;
(b) if one attempt succeeds and its owner stays alive, a second attempt on the
    same target fails — at most one of two racing attempts wins;
(c) a recorded owner that is dead in the OS is broken: the stale file is
    removed and the one-shot retry succeeds, installing the caller's lock. -/
theorem acquireLock_excl (sys : LockSys) (target : String) :
    (∀ l id1 p1 ts1, sys.fs (lockPath target) = some l → sys.alive l.pid = true →
      acquireLock sys p1 id1 target ts1 = (false, sys)) ∧
    (∀ id1 p1 ts1 id2 p2 ts2,
      (acquireLock sys p1 id1 target ts1).1 = true → sys.alive p1 = true →
      (acquireLock (acquireLock sys p1 id1 target ts1).2 p2 id2 target ts2).1 = false) ∧
    (∀ l id1 p1 ts1, sys.fs (lockPath target) = some l → sys.alive l.pid = false →
      acquireLock sys p1 id1 target ts1 =
        (true, { sys with
          fs := fsSetLock (fsSetLock sys.fs (lockPath target) none)
            (lockPath target) (some ⟨id1, p1, ts1⟩) })) := by
  refine ⟨?_, ?_, ?_⟩
  · intro l id1 p1 ts1 hl ha
    simp [acquireLock, acquireLockFuel, hl, ha]
  · intro id1 p1 ts1 id2 p2 ts2 h1 halive
    rcases hfs : sys.fs (lockPath target) with _ | l
    · simp [acquireLock, acquireLockFuel, hfs, fsSetLock, halive]
    · by_cases ha : sys.alive l.pid
      · simp [acquireLock, acquireLockFuel, hfs, ha] at h1
      · simp [acquireLock, acquireLockFuel, hfs, ha, fsSetLock, halive]
  · intro l id1 p1 ts1 hl hd
    simp [acquireLock, acquireLockFuel, hl, hd, fsSetLock]

/-- Witness for `acquireLock_excl` on a concrete system: pid 7 holds the lock
for target `chatgpt` and is alive, so pid 9 is refused; on a system whose
recorded owner pid 3 is dead, pid 9 succeeds. -/
theorem acquireLock_excl_witness :
    (acquireLock
        { fs := fsSetLock (fun _ => none) (lockPath "chatgpt")
            (some ⟨"t1", 7, "ts0"⟩),
          alive := fun p => p = 7 ∨ p = 9 }
        9 "t2" "chatgpt" "ts1").1 = false ∧
    (acquireLock
        { fs := fsSetLock (fun _ => none) (lockPath "chatgpt")
            (some ⟨"t1", 3, "ts0"⟩),
          alive := fun p => p = 9 }
        9 "t2" "chatgpt" "ts1").1 = true := by
  constructor
  · have h := (acquireLock_excl
      { fs := fsSetLock (fun _ => none) (lockPath "chatgpt")
          (some ⟨"t1", 7, "ts0"⟩),
        alive := fun p => p = 7 ∨ p = 9 } "chatgpt").1
        ⟨"t1", 7, "ts0"⟩ "t2" 9 "ts1" (by simp [fsSetLock]) (by simp)
    rw [h]
  · have h := (acquireLock_excl
      { fs := fsSetLock (fun _ => none) (lockPath "chatgpt")
          (some ⟨"t1", 3, "ts0"⟩),
        alive := fun p => p = 9 } "chatgpt").2.2
        ⟨"t1", 3, "ts0"⟩ "t2" 9 "ts1" (by simp [fsSetLock]) (by simp)
    rw [h]

/-- C10 theorem.  Both lock operations address the file
`RUNNING_<target.toLowerCase()>.lock`, so their behaviour only depends on the
lower-cased target: two spellings with the same lower case act on the same
lock (mutual exclusion across casings), and a release under either spelling
removes the lock the other created. -/
theorem acquireLockFuel_path_congr (p : Nat) (id ts t1 t2 : String)
    (h : lockPath t1 = lockPath t2) :
    ∀ fuel sys, acquireLockFuel p id t1 ts fuel sys =
      acquireLockFuel p id t2 ts fuel sys := by
  intro fuel
  induction fuel with
  | zero => intro sys; rfl
  | succ n ih =>
    intro sys
    unfold acquireLockFuel
    simp only [h, ih]

theorem lock_target_case_insensitive (t1 t2 : String)
    (h : jsToLowerCase t1 = jsToLowerCase t2) :
    (∀ sys p id ts, acquireLock sys p id t1 ts = acquireLock sys p id t2 ts) ∧
    (∀ sys, releaseLock sys t1 = releaseLock sys t2) ∧
    (∀ sys p id ts,
      (releaseLock (acquireLock sys p id t1 ts).2 t2).fs (lockPath t1) = none) := by
  have hp : lockPath t1 = lockPath t2 := by unfold lockPath; rw [h]
  refine ⟨?_, ?_, ?_⟩
  · intro sys p id ts
    exact acquireLockFuel_path_congr p id ts t1 t2 hp 2 sys
  · intro sys
    unfold releaseLock
    rw [hp]
  · intro sys p id ts
    unfold acquireLock
    rw [acquireLockFuel_path_congr p id ts t1 t2 hp 2 sys]
    unfold releaseLock
    simp [fsSetLock, hp]

/-- Witness for `lock_target_case_insensitive` at `ChatGPT` / `CHATGPT`:
acquiring under one casing and releasing under the other leaves no lock. -/
theorem lock_target_case_insensitive_witness :
    (releaseLock
        (acquireLock { fs := fun _ => none, alive := fun _ => true }
          4 "tid" "ChatGPT" "ts").2
        "CHATGPT").fs (lockPath "ChatGPT") = none := by
  exact (lock_target_case_insensitive "ChatGPT" "CHATGPT" (by decide)).2.2
    { fs := fun _ => none, alive := fun _ => true } 4 "tid" "ts"

/- ==========================================================================
   Scheduler theorems
========================================================================== -/

theorem filterStep_skip_pending (now : Int) (all : List Task) (t : Task)
    (h : filterStep now all t = .skipAndSave) : t.state.status = .PENDING := by
  by_contra hne
  simp [filterStep, hne] at h

/-- The eligibility pass only ever rewrites PENDING entries of the store
(the only mutation is `skipTask` on a task the filter is examining, and the
filter drops non-PENDING tasks before reaching the dependency logic). -/
theorem eligGo_preserves_nonpending (now : Int) :
    ∀ (fuel i : Nat) (all elig : List Task) (j : Nat) (t0 : Task),
      all[j]? = some t0 → t0.state.status ≠ .PENDING →
      (eligGo now fuel i all elig).1[j]? = some t0 := by
  intro fuel
  induction fuel with
  | zero => intro i all elig j t0 hj _; simpa [eligGo] using hj
  | succ n ih =>
    intro i all elig j t0 hj hnp
    rw [eligGo]
    rcases hi : all[i]? with _ | t
    · simpa using hj
    · rcases hf : filterStep now all t with _ | _ | _
      · simpa [hf] using ih (i + 1) all (t :: elig) j t0 hj hnp
      · simpa [hf] using ih (i + 1) all elig j t0 hj hnp
      · have hij : j ≠ i := by
          intro he
          subst he
          rw [hj] at hi
          have ht0 : t0 = t := Option.some.inj hi
          exact hnp (by rw [ht0]; exact filterStep_skip_pending now all t hf)
        have hset : (all.set i (skipTask t))[j]? = some t0 := by
          rw [List.getElem?_set_ne (fun he => hij he.symm)]
          exact hj
        simpa [hf] using ih (i + 1) (all.set i (skipTask t)) elig j t0 hset hnp

/-- C2 theorem.  On every `loadNextTask` pass, a task whose status is RUNNING
and whose `started_at` lies more than `RUNNING_RECOVERY_MS` in the past is
rewritten to FAILED with a SYSTEM_RECOVERY history event appended, and that
rewrite is already in the store the eligibility filter then runs on (the
sweep of io.js lines 204-214 saves each recovered task before the filter of
lines 217-247 executes). -/
theorem loadNextTask_zombie_recovery (cfg : Config) (now : Int)
    (nowIso : String) (ts : List Task) (i : Nat) (t : Task) (s : Int)
    (hget : ts[i]? = some t)
    (hrun : t.state.status = .RUNNING)
    (hstart : t.state.started_at = some s)
    (hold : now - s > cfg.RUNNING_RECOVERY_MS) :
    (loadNextTask cfg now nowIso ts).1[i]? = some (recoveredTask nowIso t) ∧
    (recoveredTask nowIso t).state.status = .FAILED ∧
    (recoveredTask nowIso t).state.history = t.state.history ++
      [{ ts := nowIso, event := "SYSTEM_RECOVERY",
         msg := some "Ressuscitado por inatividade" }] := by
  have hswept : (zombieSweep cfg now nowIso ts)[i]? =
      some (recoveredTask nowIso t) := by
    unfold zombieSweep
    rw [List.getElem?_map, hget]
    simp [hrun, hstart, hold]
  refine ⟨?_, rfl, rfl⟩
  unfold loadNextTask eligPass
  exact eligGo_preserves_nonpending now (zombieSweep cfg now nowIso ts).length 0
    (zombieSweep cfg now nowIso ts) [] i (recoveredTask nowIso t) hswept
    (by simp [recoveredTask])

/-- The task of the zombie-recovery witness: RUNNING since epoch 0. -/
def zomTask : Task :=
  { meta := { id := "z1", priority := 5, created_at := "1970-01-01T00:00:00.000Z" },
    spec := { payload := { user_message := "hi" } },
    policy := {},
    state := { status := .RUNNING, started_at := some 0 } }

/-- Witness for `loadNextTask_zombie_recovery`: one RUNNING task started at
epoch 0, observed two hours later with the default 40-minute threshold. -/
theorem loadNextTask_zombie_recovery_witness :
    (loadNextTask DEFAULTS 7200000 "1970-01-01T02:00:00.000Z" [zomTask]).1[0]? =
      some (recoveredTask "1970-01-01T02:00:00.000Z" zomTask) := by
  exact (loadNextTask_zombie_recovery DEFAULTS 7200000 "1970-01-01T02:00:00.000Z"
    [zomTask] 0 zomTask 0 rfl rfl rfl (by decide)).1

/- --------------------------------------------------------------------------
   C3: dependency resolution
-------------------------------------------------------------------------- -/

def depMissing (all : List Task) (d : String) : Bool :=
  (all.find? (fun x => x.meta.id == d)).isNone

def depFailedOrSkipped (all : List Task) (d : String) : Bool :=
  match all.find? (fun x => x.meta.id == d) with
  | some p => decide (p.state.status = .FAILED ∨ p.state.status = .SKIPPED)
  | none => false

def depDone (all : List Task) (d : String) : Bool :=
  match all.find? (fun x => x.meta.id == d) with
  | some p => decide (p.state.status = .DONE)
  | none => false

/-- Modelled from the amended wording of the dependency-resolution claim:
the scan walks the dependency list in order and stops at the first dependency
that is missing or FAILED/SKIPPED; if that decisive dependency is
FAILED/SKIPPED the task is skipped, if it is missing the task is blocked;
with no decisive dependency the task is blocked when some dependency is not
DONE and eligible when all are DONE. -/
def specDepDecision (all : List Task) (deps : List String) : FilterStep :=
  match deps.find? (fun d => depMissing all d || depFailedOrSkipped all d) with
  | some d => if depFailedOrSkipped all d then .skipAndSave else .dropped
  | none => if deps.all (fun d => depDone all d) then .eligible else .dropped

theorem scanDeps_characterization (all : List Task) :
    ∀ (deps : List String) (b : Bool),
      scanDeps all deps b =
        match deps.find? (fun d => depMissing all d || depFailedOrSkipped all d) with
        | some d => if depFailedOrSkipped all d then .parentFailed else .blocked
        | none =>
          if b || deps.any (fun d => !depDone all d) then .blocked else .ok := by
  intro deps
  induction deps with
  | nil => intro b; cases b <;> simp [scanDeps]
  | cons d ds ih =>
    intro b
    rcases hf : all.find? (fun x => x.meta.id == d) with _ | p
    · have hm : depMissing all d = true := by simp [depMissing, hf]
      have hfs : depFailedOrSkipped all d = false := by simp [depFailedOrSkipped, hf]
      simp [scanDeps, hf, List.find?, hm, hfs]
    · by_cases hps : p.state.status = .FAILED ∨ p.state.status = .SKIPPED
      · have hfs : depFailedOrSkipped all d = true := by
          simp [depFailedOrSkipped, hf, hps]
        simp [scanDeps, hf, hps, List.find?, hfs]
      · have hm : depMissing all d = false := by simp [depMissing, hf]
        have hfs : depFailedOrSkipped all d = false := by
          simp [depFailedOrSkipped, hf, hps]
        have hd : depDone all d = decide (p.state.status = .DONE) := by
          simp [depDone, hf]
        rw [show scanDeps all (d :: ds) b =
            scanDeps all ds (b || decide (p.state.status ≠ .DONE)) by
          simp [scanDeps, hf, hps]]
        rw [ih]
        simp only [List.find?, hm, hfs, List.any_cons, hd]
        rcases hfind : ds.find? (fun d => depMissing all d || depFailedOrSkipped all d)
          with _ | d0
        · simp only [Bool.false_or, hfind]
          congr 1
          cases b <;> by_cases hdn : p.state.status = .DONE <;>
            simp [hdn, Bool.or_comm, Bool.or_assoc, Bool.or_left_comm]
        · simp [hfind]

/-- C3 amended theorem.  For a PENDING task whose time lock has passed and
whose dependency list is non-empty, the filter decision of io.js lines
224-245 equals `specDepDecision` (first missing-or-FAILED/SKIPPED dependency
in list order decides; SKIPPED only when that first decisive dependency is
FAILED/SKIPPED); a task is eligible exactly when every dependency resolves to
a DONE task; a skipped task is stored as SKIPPED (persisted via saveTask) and
excluded from the eligible set, and a blocked task is left unchanged and
excluded. -/
theorem loadNextTask_dependency_resolution (now : Int) (all : List Task)
    (t : Task)
    (hp : t.state.status = .PENDING)
    (htime : ∀ ea, t.policy.execute_after = some ea → ¬ea > now)
    (hdeps : t.policy.dependencies ≠ []) :
    (filterStep now all t = specDepDecision all t.policy.dependencies) ∧
    (filterStep now all t = .eligible ↔
      ∀ d ∈ t.policy.dependencies, ∃ p,
        all.find? (fun x => x.meta.id == d) = some p ∧ p.state.status = .DONE) ∧
    ((skipTask t).state.status = .SKIPPED) ∧
    (∀ fuel i elig, all[i]? = some t →
      filterStep now all t = .skipAndSave →
      eligGo now (fuel + 1) i all elig =
        eligGo now fuel (i + 1) (all.set i (skipTask t)) elig) ∧
    (∀ fuel i elig, all[i]? = some t →
      filterStep now all t = .dropped →
      eligGo now (fuel + 1) i all elig = eligGo now fuel (i + 1) all elig) := by
  have hstep : filterStep now all t = specDepDecision all t.policy.dependencies := by
    unfold filterStep filterStep.filterDeps
    have hne : ¬t.policy.dependencies.isEmpty := by
      simpa [List.isEmpty_iff] using hdeps
    rcases hea : t.policy.execute_after with _ | ea
    · simp only [hp, ite_false, hne]
      rw [scanDeps_characterization]
      unfold specDepDecision
      rcases hfind : t.policy.dependencies.find?
          (fun d => depMissing all d || depFailedOrSkipped all d) with _ | d0
      · simp only [hfind, Bool.false_or]
        by_cases hall : t.policy.dependencies.all (fun d => depDone all d)
        · have : t.policy.dependencies.any (fun d => !depDone all d) = false := by
            simpa [List.all_eq_true, List.any_eq_true] using hall
          simp [this, hall, hne]
        · have : t.policy.dependencies.any (fun d => !depDone all d) = true := by
            simp only [List.all_eq_true] at hall
            simp only [List.any_eq_true]
            push_neg at hall
            obtain ⟨d, hd, hdd⟩ := hall
            exact ⟨d, hd, by simp [hdd]⟩
          simp [this, hall, hne]
      · by_cases hfs : depFailedOrSkipped all d0 <;> simp [hfind, hfs, hne]
    · have := htime ea hea
      simp only [hp, ite_false, hea, this, hne]
      rw [scanDeps_characterization]
      unfold specDepDecision
      rcases hfind : t.policy.dependencies.find?
          (fun d => depMissing all d || depFailedOrSkipped all d) with _ | d0
      · simp only [hfind, Bool.false_or]
        by_cases hall : t.policy.dependencies.all (fun d => depDone all d)
        · have : t.policy.dependencies.any (fun d => !depDone all d) = false := by
            simpa [List.all_eq_true, List.any_eq_true] using hall
          simp [this, hall, hne]
        · have : t.policy.dependencies.any (fun d => !depDone all d) = true := by
            simp only [List.all_eq_true] at hall
            simp only [List.any_eq_true]
            push_neg at hall
            obtain ⟨d, hd, hdd⟩ := hall
            exact ⟨d, hd, by simp [hdd]⟩
          simp [this, hall, hne]
      · by_cases hfs : depFailedOrSkipped all d0 <;> simp [hfind, hfs, hne]
  refine ⟨hstep, ?_, rfl, ?_, ?_⟩
  · rw [hstep]
    unfold specDepDecision
    constructor
    · intro he d hd
      rcases hfind : t.policy.dependencies.find?
          (fun d => depMissing all d || depFailedOrSkipped all d) with _ | d0
      · rw [hfind] at he
        by_cases hall : t.policy.dependencies.all (fun d => depDone all d)
        · have := (List.all_eq_true.mp hall) d hd
          rcases hf : all.find? (fun x => x.meta.id == d) with _ | p
          · simp [depDone, hf] at this
          · refine ⟨p, hf, ?_⟩
            simpa [depDone, hf] using this
        · simp [hall] at he
      · rw [hfind] at he
        by_cases hfs : depFailedOrSkipped all d0 <;> simp [hfs] at he
    · intro hall
      have hfind : t.policy.dependencies.find?
          (fun d => depMissing all d || depFailedOrSkipped all d) = none := by
        rw [List.find?_eq_none]
        intro d hd
        obtain ⟨p, hp1, hp2⟩ := hall d hd
        simp [depMissing, depFailedOrSkipped, hp1, hp2]
      rw [hfind]
      have : t.policy.dependencies.all (fun d => depDone all d) = true := by
        rw [List.all_eq_true]
        intro d hd
        obtain ⟨p, hp1, hp2⟩ := hall d hd
        simp [depDone, hp1, hp2]
      simp [this]
  · intro fuel i elig hi hs
    conv_lhs => rw [eligGo]
    simp [hi, hs]
  · intro fuel i elig hi hs
    conv_lhs => rw [eligGo]
    simp [hi, hs]

/-- Tasks for the C3 counterexample: `cexChild` is PENDING and depends first
on the nonexistent id `d0`, then on `cexParent` whose status is FAILED. -/
def cexParent : Task :=
  { meta := { id := "d1", priority := 5, created_at := "2024-01-01T00:00:00Z" },
    spec := { payload := { user_message := "x" } },
    policy := {},
    state := { status := .FAILED } }

def cexChild : Task :=
  { meta := { id := "t1", priority := 5, created_at := "2024-01-02T00:00:00Z" },
    spec := { payload := { user_message := "y" } },
    policy := { dependencies := ["d0", "d1"] },
    state := {} }

/-- C3 counterexample.  `cexChild` has a dependency (`d1`) whose task has
status FAILED, so the claim requires the scheduling pass to set it to SKIPPED
and persist that; but because the scan hits the missing dependency `d0` first
and breaks, the pass leaves the stored task PENDING (blocked), and it is not
selected. -/
theorem dependency_failed_not_skipped_cex :
    cexChild.state.status = .PENDING ∧
    "d1" ∈ cexChild.policy.dependencies ∧
    (List.find? (fun x => x.meta.id == "d1") [cexParent, cexChild]
      = some cexParent) ∧
    cexParent.state.status = .FAILED ∧
    (loadNextTask DEFAULTS 0 "2024-01-03T00:00:00Z" [cexParent, cexChild]).1[1]?
      = some cexChild ∧
    cexChild.state.status ≠ .SKIPPED ∧
    (loadNextTask DEFAULTS 0 "2024-01-03T00:00:00Z" [cexParent, cexChild]).2 = none := by
  refine ⟨rfl, by decide, by decide, rfl, ?_, by decide, ?_⟩ <;> decide

/- ==========================================================================
   Raw (unvalidated) task JSON and parseTask (src/core/schemas.js lines
   39-189).  A Raw* field is `none` when the JSON key is absent.  Fields the
   claims never touch (tags, checksum, parameters, validation, result,
   metrics, ...) carry zod defaults that always succeed and are omitted; the
   `datetime` format check on `execute_after` is not modelled (timestamps are
   already epoch integers in this embedding).
========================================================================== -/

structure RawPayload where
  system_message : Option String := none
  user_message : Option String := none
deriving DecidableEq, Repr

structure RawSpec where
  target : Option String := none
  model : Option String := none
  payload : Option RawPayload := none
deriving DecidableEq, Repr

structure RawMeta where
  id : Option String := none
  priority : Option Int := none
  created_at : Option String := none
deriving DecidableEq, Repr

structure RawPolicy where
  dependencies : Option (List String) := none
  execute_after : Option Int := none
deriving DecidableEq, Repr

structure RawState where
  status : Option String := none
  attempts : Option Nat := none
  started_at : Option Int := none
  last_error : Option String := none
  history : Option (List HistoryEvent) := none
deriving DecidableEq, Repr

structure RawTask where
  meta : Option RawMeta := none
  spec : Option RawSpec := none
  policy : Option RawPolicy := none
  state : Option RawState := none
  prompt : Option String := none
  prioridade : Option Int := none
  id : Option String := none
  status : Option String := none
  erro : Option String := none
  dependsOn : Option (List String) := none
deriving DecidableEq, Repr

/-- JS truthiness of a possibly-absent string (absent, `""` are falsy). -/
def strTruthy : Option String → Bool
  | some s => s ≠ ""
  | none => false

/-- Character class of the `MetaSchema.id` regex `[a-zA-Z0-9._-]`. -/
def validIdChar (c : Char) : Bool :=
  c.isAlphanum || c == '.' || c == '_' || c == '-'

/-- `^[a-zA-Z0-9._-]+$` with `min(1)` (schemas.js line 40). -/
def validId (s : String) : Bool :=
  s.length > 0 && s.data.all validIdChar

/-- `n.id.replace(/[^a-zA-Z0-9._-]/g, '_')` (schemas.js line 168). -/
def jsSanitizeId (s : String) : String :=
  ⟨s.data.map (fun c => if validIdChar c then c else '_')⟩

def statusOfString : String → Option Status
  | "PENDING" => some .PENDING
  | "RUNNING" => some .RUNNING
  | "DONE" => some .DONE
  | "FAILED" => some .FAILED
  | "PAUSED" => some .PAUSED
  | "SKIPPED" => some .SKIPPED
  | "STALLED" => some .STALLED
  | _ => none

/-- JS whitespace for `trim` (ASCII part, which is all the embedding needs). -/
def isWsChar (c : Char) : Bool :=
  c == ' ' || c == '\t' || c == '\n' || c == '\r'

/-- `z.string().trim()`: JavaScript `String.prototype.trim`. -/
def jsTrim (s : String) : String :=
  ⟨((s.data.dropWhile isWsChar).reverse.dropWhile isWsChar).reverse⟩

/-- The control-character strip of `SpecSchema.payload.user_message`
(schemas.js line 63): drop `\x00`-`\x08`, `\x0B`, `\x0C`, `\x0E`-`\x1F`
and `\x7F`. -/
def ctrlStrip (s : String) : String :=
  ⟨s.data.filter (fun c =>
    !(c.toNat ≤ 8 || c.toNat = 11 || c.toNat = 12 ||
      (14 ≤ c.toNat && c.toNat ≤ 31) || c.toNat = 127))⟩

/-- Legacy adapter block A of `parseTask` (schemas.js lines 160-178). -/
def legacyAdapt (n : RawTask) : RawTask :=
  let n :=
    if strTruthy n.prompt &&
        (n.spec.isNone || ((n.spec.getD {}).payload).isNone) then
      { n with spec := some { n.spec.getD {} with
          payload := some { (n.spec.getD {}).payload.getD {} with
            user_message := n.prompt } } }
    else n
  let n :=
    if n.prioridade.isSome &&
        (n.meta.isNone || ((n.meta.getD {}).priority).isNone) then
      { n with meta := some { n.meta.getD {} with priority := n.prioridade } }
    else n
  let n :=
    if strTruthy n.id &&
        (n.meta.isNone || !strTruthy (n.meta.getD {}).id) then
      { n with meta := some { n.meta.getD {} with
          id := some (jsSanitizeId (n.id.getD "")) } }
    else n
  let n :=
    if strTruthy n.status &&
        (n.state.isNone || !strTruthy (n.state.getD {}).status) then
      { n with state := some { n.state.getD {} with status := n.status } }
    else n
  let n :=
    if strTruthy n.erro &&
        (n.state.isNone || !strTruthy (n.state.getD {}).last_error) then
      { n with state := some { n.state.getD {} with last_error := n.erro } }
    else n
  let n :=
    if n.dependsOn.isSome &&
        (n.policy.isNone || ((n.policy.getD {}).dependencies).isNone) then
      { n with policy := some { n.policy.getD {} with dependencies := n.dependsOn } }
    else n
  n

/-- `parseTask` (schemas.js lines 154-189): legacy adapters, structural block
defaults, then the zod `TaskSchema` checks on the modelled fields; a zod
failure is the thrown error. -/
def parseTask (raw : RawTask) : Except String Task :=
  let n := legacyAdapt raw
  let meta := n.meta.getD {}
  let spec := n.spec.getD {}
  let policy := n.policy.getD {}
  let state := n.state.getD {}
  match meta.id with
  | none => .error "meta.id: Required"
  | some idv =>
    if !validId idv then .error "meta.id: Invalid" else
    match meta.created_at with
    | none => .error "meta.created_at: Required"
    | some cat =>
      match spec.payload with
      | none => .error "spec.payload: Required"
      | some payload =>
        match payload.user_message with
        | none => .error "spec.payload.user_message: Required"
        | some um =>
          if um.length < 1 then .error "spec.payload.user_message: Too small" else
          match state.status.map statusOfString with
          | some none => .error "state.status: Invalid enum value"
          | st =>
            .ok {
              meta := {
                id := idv
                priority := max 0 (min 100 (meta.priority.getD 5))
                created_at := cat }
              spec := {
                target := spec.target.getD "chatgpt"
                model := spec.model.getD "gpt-5"
                payload := {
                  system_message := payload.system_message.getD ""
                  user_message := ctrlStrip (jsTrim um) } }
              policy := {
                dependencies := policy.dependencies.getD []
                execute_after := policy.execute_after }
              state := {
                status := (st.getD (some .PENDING)).getD .PENDING
                attempts := state.attempts.getD 0
                started_at := state.started_at
                last_error := state.last_error
                history := state.history.getD [] } }

/-- Tasks for the dependency-resolution witness: a DONE parent and a PENDING
child depending on it. -/
def wParent : Task :=
  { meta := { id := "p1", priority := 5, created_at := "2024-02-01T00:00:00Z" },
    spec := { payload := { user_message := "x" } },
    policy := {},
    state := { status := .DONE } }

def wChild : Task :=
  { meta := { id := "c1", priority := 5, created_at := "2024-02-02T00:00:00Z" },
    spec := { payload := { user_message := "y" } },
    policy := { dependencies := ["p1"] },
    state := {} }

/-- Witness for `loadNextTask_dependency_resolution`: with a DONE parent the
child is eligible and the code decision matches the spec decision. -/
theorem loadNextTask_dependency_resolution_witness :
    filterStep 0 [wParent, wChild] wChild =
      specDepDecision [wParent, wChild] wChild.policy.dependencies ∧
    filterStep 0 [wParent, wChild] wChild = .eligible := by
  have h := loadNextTask_dependency_resolution 0 [wParent, wChild] wChild rfl
    (by intro ea hea; simp [wChild] at hea) (by decide)
  refine ⟨h.1, h.2.1.mpr ?_⟩
  intro d hd
  have hd1 : d = "p1" := by simpa [wChild] using hd
  subst hd1
  exact ⟨wParent, by decide, rfl⟩

/- ==========================================================================
   Atomic write and saveTask (src/infra/io.js lines 68-93 and 155-166)
========================================================================== -/

/-- Files on disk as seen by the store: path to content. -/
abbrev FileFS := String → Option String

def fsWrite (fs : FileFS) (k : String) (v : Option String) : FileFS :=
  fun x => if x = k then v else fs x

/-- `fs.renameSync(tmp, dst)`: the destination atomically receives the
source's content and the source disappears. -/
def fsRename (fs : FileFS) (tmp dst : String) : FileFS :=
  fun x => if x = dst then fs tmp else if x = tmp then none else fs x

/-- `e.code` of a failed `renameSync` (io.js line 82 distinguishes
`EPERM`/`EBUSY` from everything else). -/
inductive FsErrCode where
  | EPERM | EBUSY | other
deriving DecidableEq, Repr

/-- Environment oracle: the error (if any) of the k-th rename attempt. -/
structure RenameEnv where
  renameErr : Nat → Option FsErrCode

/-- The retry loop of io.js lines 75-87 (`while (attempts < 10)`), reported
as: the rename succeeded, or the ten transient attempts were exhausted and
control fell out of the loop, or a non-transient error was thrown. -/
inductive RenameOutcome where
  | success | fellThrough | threw (c : FsErrCode)
deriving DecidableEq, Repr

def renameAttempts (env : RenameEnv) : Nat → Nat → RenameOutcome
  | 0, _ => .fellThrough
  | fuel + 1, k =>
    match env.renameErr k with
    | none => .success
    | some .EPERM => renameAttempts env fuel (k + 1)
    | some .EBUSY => renameAttempts env fuel (k + 1)
    | some .other => .threw .other

def tmpName (filepath pidStr uuid : String) : String :=
  filepath ++ ".tmp." ++ pidStr ++ "." ++ uuid

/-- `atomicWrite` (io.js lines 68-93): write the content to a temporary
sibling, rename it over the target with up to ten retries on EPERM/EBUSY, on
a non-transient error unlink the temporary and rethrow.  Exhausting the ten
retries exits the `while` without a `return` or `throw`, so the function
resolves normally.  Returns the thrown error (if any), the final filesystem
and every filesystem state the execution passes through, in order. -/
def atomicWrite (env : RenameEnv) (fs : FileFS)
    (filepath content pidStr uuid : String) :
    Except FsErrCode Unit × FileFS × List FileFS :=
  let tmp := tmpName filepath pidStr uuid
  let fs1 := fsWrite fs tmp (some content)
  match renameAttempts env 10 0 with
  | .success =>
    let fs2 := fsRename fs1 tmp filepath
    (.ok (), fs2, [fs, fs1, fs2])
  | .fellThrough => (.ok (), fs1, [fs, fs1])
  | .threw c =>
    let fs2 := fsWrite fs1 tmp none
    (.error c, fs2, [fs, fs1, fs2])

def fsErrName : FsErrCode → String
  | .EPERM => "EPERM"
  | .EBUSY => "EBUSY"
  | .other => "EIO"

/-- `JSON.stringify(validated, null, 2)` of io.js line 160, abstracted to a
concrete rendering of the validated task; the properties proved about the
save path are independent of the exact text. -/
def serializeTask (t : Task) : String :=
  String.intercalate "|" [t.meta.id, toString t.meta.priority, t.meta.created_at,
    t.spec.target, t.spec.payload.user_message]

def taskFilePath (id : String) : String := "fila/" ++ id ++ ".json"

/-- `saveTask` (io.js lines 155-166): validate through `parseTask` before
touching the disk (a validation error is rethrown and nothing is written),
then atomically replace `fila/<id>.json`. -/
def saveTask (env : RenameEnv) (fs : FileFS) (raw : RawTask)
    (pidStr uuid : String) : Except String Unit × FileFS × List FileFS :=
  match parseTask raw with
  | .error e => (.error e, fs, [fs])
  | .ok v =>
    let res := atomicWrite env fs (taskFilePath v.meta.id) (serializeTask v)
      pidStr uuid
    (res.1.mapError fsErrName, res.2.1, res.2.2)

theorem tmpName_ne (filepath pidStr uuid : String) :
    tmpName filepath pidStr uuid ≠ filepath := by
  intro h
  have hl := congrArg String.length h
  simp only [tmpName, String.length_append] at hl
  have : (".tmp." : String).length = 5 := by decide
  omega

theorem atomicWrite_target_states (env : RenameEnv) (fs : FileFS)
    (filepath content pidStr uuid : String)
    (hne : tmpName filepath pidStr uuid ≠ filepath) :
    ∀ st ∈ (atomicWrite env fs filepath content pidStr uuid).2.2,
      st filepath = fs filepath ∨ st filepath = some content := by
  intro st hst
  have hne2 : filepath ≠ tmpName filepath pidStr uuid := Ne.symm hne
  unfold atomicWrite at hst
  rcases hout : renameAttempts env 10 0 with _ | _ | c <;>
    rw [hout] at hst <;>
    simp only [List.mem_cons, List.mem_singleton, List.not_mem_nil,
      or_false] at hst
  · rcases hst with h | h | h
    · left; rw [h]
    · left; rw [h]; simp [fsWrite, hne2]
    · right; rw [h]; simp [fsRename, fsWrite, hne2]
  · rcases hst with h | h
    · left; rw [h]
    · left; rw [h]; simp [fsWrite, hne2]
  · rcases hst with h | h | h
    · left; rw [h]
    · left; rw [h]; simp [fsWrite, hne2]
    · left; rw [h]; simp [fsWrite, hne2]

/-- C4 theorem.  `saveTask` validates first: a schema error leaves the disk
untouched; on success, at every filesystem state the save passes through the
task's file holds either the complete prior content or the complete new
serialized task, and a partial temporary write never affects the target
(the temporary name differs from the target). -/
theorem saveTask_atomic_replace (env : RenameEnv) (fs : FileFS)
    (raw : RawTask) (pidStr uuid : String) :
    (∀ e, parseTask raw = .error e →
      saveTask env fs raw pidStr uuid = (.error e, fs, [fs])) ∧
    (∀ v, parseTask raw = .ok v →
      (∀ st ∈ (saveTask env fs raw pidStr uuid).2.2,
        st (taskFilePath v.meta.id) = fs (taskFilePath v.meta.id) ∨
        st (taskFilePath v.meta.id) = some (serializeTask v)) ∧
      (∀ c : String,
        fsWrite fs (tmpName (taskFilePath v.meta.id) pidStr uuid) (some c)
          (taskFilePath v.meta.id) = fs (taskFilePath v.meta.id))) := by
  constructor
  · intro e he
    unfold saveTask
    rw [he]
  · intro v hv
    have hne := tmpName_ne (taskFilePath v.meta.id) pidStr uuid
    have hstates : (saveTask env fs raw pidStr uuid).2.2 =
        (atomicWrite env fs (taskFilePath v.meta.id) (serializeTask v)
          pidStr uuid).2.2 := by
      unfold saveTask
      rw [hv]
    constructor
    · intro st hst
      rw [hstates] at hst
      exact atomicWrite_target_states env fs (taskFilePath v.meta.id)
        (serializeTask v) pidStr uuid hne st hst
    · intro c
      simp [fsWrite, Ne.symm hne]

/-- Witness for `saveTask_atomic_replace`: a save of a valid raw task over a
file holding `old` passes only through states where the file holds `old` or
the new serialization. -/
theorem saveTask_atomic_replace_witness :
    ∀ st ∈ (saveTask ⟨fun _ => none⟩
        (fun p => if p = taskFilePath "a1" then some "old" else none)
        { meta := some { id := some "a1",
                         created_at := some "2024-01-01T00:00:00Z" },
          spec := some { payload := some { user_message := some "hello" } } }
        "1" "ab").2.2,
      st (taskFilePath "a1") = some "old" ∨
      st (taskFilePath "a1") =
        some (serializeTask {
          meta := { id := "a1", priority := 5,
                    created_at := "2024-01-01T00:00:00Z" },
          spec := { payload := { user_message := "hello" } },
          policy := {},
          state := {} }) := by
  intro st hst
  have h := (saveTask_atomic_replace ⟨fun _ => none⟩
      (fun p => if p = taskFilePath "a1" then some "old" else none)
      { meta := some { id := some "a1",
                       created_at := some "2024-01-01T00:00:00Z" },
        spec := some { payload := some { user_message := some "hello" } } }
      "1" "ab").2
      { meta := { id := "a1", priority := 5,
                  created_at := "2024-01-01T00:00:00Z" },
        spec := { payload := { user_message := "hello" } },
        policy := {},
        state := {} }
      rfl
  have h2 := h.1 st hst
  simpa using h2

/-- The all-EPERM environment: every rename attempt fails transiently. -/
def allEPERM : RenameEnv := ⟨fun _ => some .EPERM⟩

/-- C9 theorem (documents the divergence).  When all ten rename attempts fail
with EPERM the loop exhausts its retries and `atomicWrite` resolves
successfully (`.ok`), leaving the target file unreplaced (still absent here)
and the orphaned temporary behind — no error surfaces to the caller, against
the spec's requirement. -/
theorem atomicWrite_retry_exhaustion_silent :
    (atomicWrite allEPERM (fun _ => none) "fila/a1.json" "new" "1" "ab").1 =
      .ok () ∧
    (atomicWrite allEPERM (fun _ => none) "fila/a1.json" "new" "1" "ab").2.1
      "fila/a1.json" = none ∧
    (atomicWrite allEPERM (fun _ => none) "fila/a1.json" "new" "1" "ab").2.1
      (tmpName "fila/a1.json" "1" "ab") = some "new" := by
  refine ⟨rfl, ?_, ?_⟩ <;> decide

/- ==========================================================================
   Engine schema-failure handling (index.js lines 129-137)
========================================================================== -/

/-- Outcome of engine step 5 (index.js lines 129-137) for one raw task. -/
inductive EngineValidation where
  /-- `parseTask` succeeded; execution proceeds with the validated task. -/
  | proceeded (t : Task)
  /-- `parseTask` failed and the FAILED record was written to disk. -/
  | failurePersisted (fs : FileFS)
  /-- an exception escaped the handler to the main loop's top-level catch. -/
  | raised (e : String) (fs : FileFS)

/-- Engine step 5: validate the raw task; on a schema error overwrite its
`state` with an object holding only `status: FAILED` and the violation
message, then persist through `io.saveTask` — which itself re-runs
`parseTask` and rethrows on failure (io.js lines 155-166). -/
def engineValidateTask (env : RenameEnv) (fs : FileFS) (raw : RawTask)
    (pidStr uuid : String) : EngineValidation :=
  match parseTask raw with
  | .ok t => .proceeded t
  | .error e =>
    let st2 : RawState :=
      { status := some "FAILED",
        last_error := some ("Schema Violation: " ++ e) }
    let raw2 := { raw with state := some st2 }
    match saveTask env fs raw2 pidStr uuid with
    | (.ok _, fs2, _) => .failurePersisted fs2
    | (.error e2, fs2, _) => .raised e2 fs2

/-- A task file that parses as JSON but violates the schema outside `state`:
its id contains a space, rejected by the `MetaSchema.id` regex. -/
def badIdRaw : RawTask :=
  { meta := some { id := some "bad id", created_at := some "2024-01-01T00:00:00Z" },
    spec := some { payload := some { user_message := some "hello" } },
    state := some { status := some "PENDING" } }

/-- C5 theorem (documents the divergence).  For the schema-invalid task
`badIdRaw`, the handler's own `saveTask` re-validates, hits the same schema
error, and rethrows: the engine does not persist the FAILED record (the
filesystem is returned unchanged) and the error escapes to the main loop's
top-level catch. -/
theorem schema_invalid_task_not_persisted (env : RenameEnv) (fs : FileFS)
    (pidStr uuid : String) :
    parseTask badIdRaw = .error "meta.id: Invalid" ∧
    engineValidateTask env fs badIdRaw pidStr uuid =
      .raised "meta.id: Invalid" fs := by
  exact ⟨rfl, rfl⟩

/- ==========================================================================
   Corrupt-file quarantine: safeReadJSON and getQueue
   (src/infra/io.js lines 98-121 and 131-153)
========================================================================== -/

/-- Content of a queue file as `safeReadJSON` classifies it: whitespace-only
(`EMPTY_FILE`), a `JSON.parse` syntax error, or parsed JSON. -/
inductive JsonContent where
  | empty
  | malformed
  | parsed (t : RawTask)
deriving DecidableEq, Repr

/-- The queue directory and its `corrupted/` quarantine subdirectory, each a
listing of file name to content. -/
structure QueueFS where
  files : List (String × JsonContent)
  corrupted : List (String × JsonContent)
deriving DecidableEq, Repr

/-- JavaScript `String.prototype.endsWith` (the `.json` filename filter of
io.js line 140), computed on the character lists. -/
def jsEndsWith (s suff : String) : Bool :=
  suff.data.isSuffixOf s.data

/-- Quarantine name of io.js line 112: `<basename>.<Date.now()>.bad`. -/
def quarantineName (name : String) (now : Int) : String :=
  name ++ "." ++ toString now ++ ".bad"

def quarantineMove (fs : QueueFS) (now : Int) (name : String)
    (c : JsonContent) : QueueFS :=
  { files := fs.files.eraseP (fun p => p.1 == name),
    corrupted := fs.corrupted ++ [(quarantineName name now, c)] }

/-- `safeReadJSON` (io.js lines 98-121) on a queue file: a missing file reads
as null; an empty or unparseable file is renamed into `corrupted/` with the
timestamp suffix and reads as null; parsed JSON is returned.  (The EBUSY /
EPERM retry path is transient-error handling not modelled here.) -/
def safeReadJSON (fs : QueueFS) (now : Int) (name : String) :
    Option RawTask × QueueFS :=
  match fs.files.lookup name with
  | none => (none, fs)
  | some (.parsed t) => (some t, fs)
  | some .empty => (none, quarantineMove fs now name .empty)
  | some .malformed => (none, quarantineMove fs now name .malformed)

/-- The scan loop of `getQueue` (io.js lines 140-144): read every listed
file in order, dropping the null results (`results.filter(Boolean)`). -/
def scanGo (now : Int) : List String → QueueFS → List RawTask × QueueFS
  | [], fs => ([], fs)
  | n :: ns, fs =>
    let r := safeReadJSON fs now n
    let rest := scanGo now ns r.2
    match r.1 with
    | some t => (t :: rest.1, rest.2)
    | none => rest

/-- `getQueue` (io.js lines 131-153), refresh path: list the `.json` files of
the queue directory and scan them.  (The reactive cache in front of the scan
only replays a previous scan's result and is not modelled.) -/
def getQueue (fs : QueueFS) (now : Int) : List RawTask × QueueFS :=
  scanGo now ((fs.files.map Prod.fst).filter (fun n => jsEndsWith n ".json")) fs

theorem lookup_not_mem_keys (name : String) :
    ∀ l : List (String × JsonContent), name ∉ l.map Prod.fst →
      l.lookup name = none := by
  intro l
  induction l with
  | nil => intro _; rfl
  | cons kv tl ih =>
    intro hnm
    rcases kv with ⟨k, v⟩
    simp only [List.map_cons, List.mem_cons, not_or] at hnm
    simp only [List.lookup]
    have : (name == k) = false := by simp [hnm.1]
    rw [this]
    exact ih hnm.2

theorem lookup_mem_keys (name : String) (body : JsonContent) :
    ∀ l : List (String × JsonContent), l.lookup name = some body →
      name ∈ l.map Prod.fst := by
  intro l
  induction l with
  | nil => intro h; cases h
  | cons kv tl ih =>
    intro h
    rcases kv with ⟨k, v⟩
    simp only [List.lookup] at h
    by_cases hk : name = k
    · simp [hk]
    · have hb : (name == k) = false := by simp [hk]
      rw [hb] at h
      simpa using Or.inr (ih h)

theorem lookup_eraseP_ne (n m : String) (hne : m ≠ n) :
    ∀ l : List (String × JsonContent),
      (l.eraseP (fun p => p.1 == n)).lookup m = l.lookup m := by
  intro l
  induction l with
  | nil => rfl
  | cons kv tl ih =>
    rcases kv with ⟨k, v⟩
    by_cases hk : k = n
    · rw [List.eraseP_cons_of_pos (by simp [hk])]
      simp only [List.lookup]
      have : (m == k) = false := by simp [hk ▸ hne]
      rw [this]
    · rw [List.eraseP_cons_of_neg (by simp [hk])]
      simp only [List.lookup]
      by_cases hm : m = k
      · simp [hm]
      · have hmk : (m == k) = false := by simp [hm]
        rw [hmk]
        exact ih

theorem lookup_eraseP_self (n : String) :
    ∀ l : List (String × JsonContent), (l.map Prod.fst).Nodup →
      (l.eraseP (fun p => p.1 == n)).lookup n = none := by
  intro l
  induction l with
  | nil => intro _; rfl
  | cons kv tl ih =>
    intro hnd
    rcases kv with ⟨k, v⟩
    simp only [List.map_cons, List.nodup_cons] at hnd
    by_cases hk : k = n
    · rw [List.eraseP_cons_of_pos (by simp [hk])]
      exact lookup_not_mem_keys n tl (hk ▸ hnd.1)
    · rw [List.eraseP_cons_of_neg (by simp [hk])]
      simp only [List.lookup]
      have : (n == k) = false := by
        simp only [beq_eq_false_iff_ne, ne_eq]
        exact fun he => hk he.symm
      rw [this]
      exact ih hnd.2

theorem eraseP_keys_nodup (n : String) (l : List (String × JsonContent))
    (hnd : (l.map Prod.fst).Nodup) :
    ((l.eraseP (fun p => p.1 == n)).map Prod.fst).Nodup :=
  hnd.sublist ((List.eraseP_sublist l).map Prod.fst)

theorem safeReadJSON_lookup_ne (fs : QueueFS) (now : Int) (name m : String)
    (hne : m ≠ name) :
    (safeReadJSON fs now name).2.files.lookup m = fs.files.lookup m := by
  unfold safeReadJSON
  rcases h : fs.files.lookup name with _ | c
  · rfl
  · cases c <;> simp [quarantineMove, lookup_eraseP_ne name m hne]

theorem safeReadJSON_keys_nodup (fs : QueueFS) (now : Int) (name : String)
    (hnd : (fs.files.map Prod.fst).Nodup) :
    ((safeReadJSON fs now name).2.files.map Prod.fst).Nodup := by
  unfold safeReadJSON
  rcases h : fs.files.lookup name with _ | c
  · exact hnd
  · cases c
    · exact eraseP_keys_nodup name _ hnd
    · exact eraseP_keys_nodup name _ hnd
    · exact hnd

theorem safeReadJSON_corrupted_mono (fs : QueueFS) (now : Int)
    (name : String) (c : String × JsonContent) (hc : c ∈ fs.corrupted) :
    c ∈ (safeReadJSON fs now name).2.corrupted := by
  unfold safeReadJSON
  rcases h : fs.files.lookup name with _ | b
  · exact hc
  · cases b
    · exact List.mem_append_left _ hc
    · exact List.mem_append_left _ hc
    · exact hc

theorem scanGo_lookup_not_mem (now : Int) :
    ∀ (ns : List String) (fs : QueueFS) (m : String), m ∉ ns →
      (scanGo now ns fs).2.files.lookup m = fs.files.lookup m := by
  intro ns
  induction ns with
  | nil => intro fs m _; rfl
  | cons n tl ih =>
    intro fs m hm
    have hmn : m ≠ n := fun h => hm (h ▸ List.mem_cons_self n tl)
    have hmtl : m ∉ tl := fun h => hm (List.mem_cons_of_mem n h)
    unfold scanGo
    rcases hr : (safeReadJSON fs now n).1 with _ | t <;>
      simp only [hr] <;>
      rw [ih (safeReadJSON fs now n).2 m hmtl,
        safeReadJSON_lookup_ne fs now n m hmn]

theorem scanGo_corrupted_mono (now : Int) :
    ∀ (ns : List String) (fs : QueueFS) (c : String × JsonContent),
      c ∈ fs.corrupted → c ∈ (scanGo now ns fs).2.corrupted := by
  intro ns
  induction ns with
  | nil => intro fs c hc; exact hc
  | cons n tl ih =>
    intro fs c hc
    unfold scanGo
    rcases hr : (safeReadJSON fs now n).1 with _ | t <;>
      simp only [hr] <;>
      exact ih _ c (safeReadJSON_corrupted_mono fs now n c hc)

theorem scanGo_quarantines (now : Int) :
    ∀ (ns : List String) (fs : QueueFS) (name : String) (body : JsonContent),
      ns.Nodup → name ∈ ns →
      (fs.files.map Prod.fst).Nodup →
      fs.files.lookup name = some body →
      (body = .empty ∨ body = .malformed) →
      (scanGo now ns fs).2.files.lookup name = none ∧
      (quarantineName name now, body) ∈ (scanGo now ns fs).2.corrupted := by
  intro ns
  induction ns with
  | nil => intro fs name body _ hmem; cases hmem
  | cons n tl ih =>
    intro fs name body hnd hmem hkeys hlook hbad
    rcases List.nodup_cons.mp hnd with ⟨hn_tl, hnd_tl⟩
    rcases List.mem_cons.mp hmem with he | htl
    · subst he
      have hread : safeReadJSON fs now name =
          (none, quarantineMove fs now name body) := by
        unfold safeReadJSON
        rcases hbad with h | h <;> subst h <;> rw [hlook]
      unfold scanGo
      rw [hread]
      constructor
      · rw [scanGo_lookup_not_mem now tl _ name hn_tl]
        exact lookup_eraseP_self name fs.files hkeys
      · refine scanGo_corrupted_mono now tl _ _ ?_
        simp [quarantineMove]
    · have hne : name ≠ n := fun h => hn_tl (h ▸ htl)
      unfold scanGo
      rcases hr : (safeReadJSON fs now n).1 with _ | t <;>
        simp only [hr] <;>
        exact ih (safeReadJSON fs now n).2 name body hnd_tl htl
          (safeReadJSON_keys_nodup fs now n hkeys)
          (by rw [safeReadJSON_lookup_ne fs now n name hne]; exact hlook) hbad

theorem scanGo_results (now : Int) :
    ∀ (ns : List String) (fs0 fs : QueueFS), ns.Nodup →
      (∀ n ∈ ns, fs.files.lookup n = fs0.files.lookup n) →
      (scanGo now ns fs).1 = ns.filterMap (fun n =>
        match fs0.files.lookup n with
        | some (.parsed t) => some t
        | _ => none) := by
  intro ns
  induction ns with
  | nil => intro fs0 fs _ _; rfl
  | cons n tl ih =>
    intro fs0 fs hnd hsame
    rcases List.nodup_cons.mp hnd with ⟨hn_tl, hnd_tl⟩
    have hn0 : fs.files.lookup n = fs0.files.lookup n :=
      hsame n (List.mem_cons_self n tl)
    have hrest : ∀ m ∈ tl, (safeReadJSON fs now n).2.files.lookup m =
        fs0.files.lookup m := by
      intro m hm
      have hmn : m ≠ n := fun h => hn_tl (h ▸ hm)
      rw [safeReadJSON_lookup_ne fs now n m hmn]
      exact hsame m (List.mem_cons_of_mem n hm)
    have hstep := ih fs0 (safeReadJSON fs now n).2 hnd_tl hrest
    rw [List.filterMap_cons, ← hn0]
    unfold scanGo
    rcases hc : fs.files.lookup n with _ | c
    · have hr1 : (safeReadJSON fs now n).1 = none := by
        unfold safeReadJSON; rw [hc]
      simp only [hr1]
      exact hstep
    · cases c with
      | empty =>
        have hr1 : (safeReadJSON fs now n).1 = none := by
          unfold safeReadJSON; rw [hc]
        simp only [hr1]
        exact hstep
      | malformed =>
        have hr1 : (safeReadJSON fs now n).1 = none := by
          unfold safeReadJSON; rw [hc]
        simp only [hr1]
        exact hstep
      | parsed t =>
        have hr1 : (safeReadJSON fs now n).1 = some t := by
          unfold safeReadJSON; rw [hc]
        simp only [hr1]
        rw [hstep]

/-- C8 theorem.  A `.json` queue file whose content is empty or fails to
parse is, on the next scan, moved out of the queue directory into
`corrupted/` under its original name suffixed `.<timestamp>.bad` (content
preserved), and the scan's returned list is exactly the parsed payloads of
the parseable `.json` files — the quarantined file contributes nothing and
is not retried in place. -/
theorem getQueue_quarantines_corrupt (fs : QueueFS) (now : Int)
    (name : String) (body : JsonContent)
    (hkeys : (fs.files.map Prod.fst).Nodup)
    (hlook : fs.files.lookup name = some body)
    (hjson : jsEndsWith name ".json" = true)
    (hbad : body = .empty ∨ body = .malformed) :
    (getQueue fs now).2.files.lookup name = none ∧
    (quarantineName name now, body) ∈ (getQueue fs now).2.corrupted ∧
    (getQueue fs now).1 =
      ((fs.files.map Prod.fst).filter (fun n => jsEndsWith n ".json")).filterMap
        (fun n =>
          match fs.files.lookup n with
          | some (.parsed t) => some t
          | _ => none) := by
  have hmemname : name ∈ (fs.files.map Prod.fst).filter
      (fun n => jsEndsWith n ".json") := by
    rw [List.mem_filter]
    exact ⟨lookup_mem_keys name body fs.files hlook, hjson⟩
  have hndnames : ((fs.files.map Prod.fst).filter
      (fun n => jsEndsWith n ".json")).Nodup := hkeys.filter _
  have hq := scanGo_quarantines now
    ((fs.files.map Prod.fst).filter (fun n => jsEndsWith n ".json")) fs name body
    hndnames hmemname hkeys hlook hbad
  refine ⟨hq.1, hq.2, ?_⟩
  exact scanGo_results now _ fs fs hndnames (fun _ _ => rfl)

/-- A parseable queue file for the quarantine witness. -/
def goodRaw : RawTask :=
  { meta := some { id := some "g1", created_at := some "2024-01-01T00:00:00Z" },
    spec := some { payload := some { user_message := some "ok" } } }

def qfsW : QueueFS :=
  { files := [("good.json", .parsed goodRaw), ("bad.json", .malformed)],
    corrupted := [] }

/-- Witness for `getQueue_quarantines_corrupt`: a malformed `bad.json` next
to a parseable `good.json`, scanned at time 111. -/
theorem getQueue_quarantines_corrupt_witness :
    (getQueue qfsW 111).2.files.lookup "bad.json" = none ∧
    (quarantineName "bad.json" 111, JsonContent.malformed) ∈
      (getQueue qfsW 111).2.corrupted ∧
    (getQueue qfsW 111).1 = [goodRaw] := by
  have h := getQueue_quarantines_corrupt qfsW 111 "bad.json" .malformed
    (by decide) (by decide) (by decide) (Or.inr rfl)
  refine ⟨h.1, h.2.1, ?_⟩
  rw [h.2.2]
  decide

/- ==========================================================================
   ChatGPT driver completion wait (src/driver/targets/ChatGPTDriver.js lines
   68-133) and stall triage (src/driver/modules/triage.js lines 17-97)
========================================================================== -/

/-- A JavaScript value the driver compares against numbers: a number, the
`undefined` of a missing config field, or a pending Promise object (the
result of calling an async function without `await`). -/
inductive JsVal where
  | num (n : Int)
  | undef
  | promiseVal
deriving DecidableEq, Repr

/-- ECMAScript ToNumber of those values: `undefined` is NaN, and a Promise
goes through ToPrimitive/toString to `"[object Promise]"`, which is NaN
(`none` stands for NaN). -/
def jsToNumber : JsVal → Option Int
  | .num n => some n
  | .undef => none
  | .promiseVal => none

/-- ECMAScript `>`: every comparison with NaN is false. -/
def jsGt (a b : JsVal) : Bool :=
  match jsToNumber a, jsToNumber b with
  | some x, some y => decide (x > y)
  | _, _ => false

/-- ECMAScript `>=`: every comparison with NaN is false. -/
def jsGe (a b : JsVal) : Bool :=
  match jsToNumber a, jsToNumber b with
  | some x, some y => decide (x ≥ y)
  | _, _ => false

/-- `stabilizer.getPageLoadStatus` outcomes consulted by the triage. -/
inductive LoadStatus where
  | busyNetwork | busySpinner | idle
deriving DecidableEq, Repr

/-- What one diagnosis pass observes on the page (triage.js lines 23-95). -/
structure PageObs where
  challengeRunning : Bool
  bodyHasCloudflare : Bool
  passwordInputVisible : Bool
  bodyHasLimitTerm : Bool
  bodyHasErrorTerm : Bool
  errorColoredElement : Bool
  retryControlVisible : Bool
  stopControlPresent : Bool
  loadStatus : LoadStatus
  eventLoopLagMs : Int
deriving DecidableEq, Repr

/-- The strings `diagnoseStall` can return. -/
inductive DiagStatus where
  | CAPTCHA | LOGIN_REQUIRED | LIMIT_REACHED | GENERIC_ERROR_TEXT
  | GENERIC_ERROR_VISUAL | FINISHED_ABRUPTLY | THINKING | LOADING
  | BROWSER_FROZEN | UNKNOWN
deriving DecidableEq, Repr

/-- `diagnoseStall` (triage.js lines 17-97): blockers in fixed priority
order, then network/spinner, then the event-loop lag probe, else UNKNOWN. -/
def diagnoseStall (o : PageObs) : DiagStatus :=
  if o.challengeRunning || o.bodyHasCloudflare then .CAPTCHA
  else if o.passwordInputVisible then .LOGIN_REQUIRED
  else if o.bodyHasLimitTerm then .LIMIT_REACHED
  else if o.bodyHasErrorTerm then .GENERIC_ERROR_TEXT
  else if o.errorColoredElement then .GENERIC_ERROR_VISUAL
  else if o.retryControlVisible && !o.stopControlPresent then .FINISHED_ABRUPTLY
  else match o.loadStatus with
  | .busyNetwork => .THINKING
  | .busySpinner => .LOADING
  | .idle => if o.eventLoopLagMs > 1000 then .BROWSER_FROZEN else .UNKNOWN

/-- The driver's config fields used by `waitForCompletion`.  Neither
`STABLE_CYCLES` nor `STABILITY_INTERVAL` appears in the `DEFAULTS` of
src/core/config.js, so with a default configuration both read as
`undefined`. -/
structure DriverCfg where
  STABLE_CYCLES : JsVal := .undef
  STABILITY_INTERVAL : JsVal := .undef
deriving Repr

/-- How one iteration of the `while (true)` of `waitForCompletion`
(ChatGPTDriver.js lines 84-132) ends. -/
inductive WaitOutcome where
  | raiseLimit
  | raiseCaptcha
  | raiseLogin
  | finished (text : String)
  | raiseStall (s : DiagStatus)
  | keepPolling (lastText : String) (stableCycles : Nat) (watchdogReset : Bool)
deriving DecidableEq, Repr

/-- One iteration of the wait loop: triage, blocker throws, stability
bookkeeping, the stability return, then the watchdog-gap stall check.
`dynamicTimeout` is bound to `adaptive.getAdjustedTimeout(msgs.length)`
WITHOUT `await` (line 117), so the compared value is a pending Promise.
`status.includes('THINKING')` holds exactly for the THINKING status among
the triage's possible returns. -/
def waitStep (cfg : DriverCfg) (obs : PageObs) (currentText lastText : String)
    (stableCycles : Nat) (gapMs : Int) : WaitOutcome :=
  let status := diagnoseStall obs
  if status = .LIMIT_REACHED then .raiseLimit
  else if status = .CAPTCHA then .raiseCaptcha
  else if status = .LOGIN_REQUIRED then .raiseLogin
  else
    let stable := currentText ≠ "" ∧ currentText = lastText
    let sc := if stable then stableCycles + 1 else 0
    let lt := if stable then lastText else currentText
    if jsGe (.num sc) cfg.STABLE_CYCLES then .finished currentText
    else
      let dynamicTimeout : JsVal := .promiseVal
      if jsGt (.num gapMs) dynamicTimeout then
        if status = .THINKING ∨ status = .LOADING then .keepPolling lt sc true
        else .raiseStall status
      else .keepPolling lt sc false

/-- C6 theorem (documents the divergence).  The stall branch of
`waitForCompletion` is unreachable: `gap > dynamicTimeout` compares a number
against the unawaited Promise returned by `adaptive.getAdjustedTimeout`,
which coerces to NaN, so the comparison is always false and no iteration
ever raises `STALL_DETECTED` — for a page whose diagnosis finds no blocker,
no network activity, no spinner and no frozen tab (status UNKNOWN), the loop
keeps polling no matter how long the mutation watchdog has been frozen. -/
theorem waitForCompletion_stall_unreachable :
    (∀ (cfg : DriverCfg) (obs : PageObs) (currentText lastText : String)
      (stableCycles : Nat) (gapMs : Int) (s : DiagStatus),
      waitStep cfg obs currentText lastText stableCycles gapMs ≠
        .raiseStall s) ∧
    (∀ o : PageObs, o.challengeRunning = false → o.bodyHasCloudflare = false →
      o.passwordInputVisible = false → o.bodyHasLimitTerm = false →
      o.bodyHasErrorTerm = false → o.errorColoredElement = false →
      o.retryControlVisible = false → o.loadStatus = .idle →
      o.eventLoopLagMs ≤ 1000 → diagnoseStall o = .UNKNOWN) := by
  constructor
  · intro cfg obs currentText lastText stableCycles gapMs s
    unfold waitStep
    simp only [jsGt, jsToNumber]
    split_ifs <;> simp_all
  · intro o h1 h2 h3 h4 h5 h6 h7 h8 h9
    have : ¬o.eventLoopLagMs > 1000 := by omega
    simp [diagnoseStall, h1, h2, h3, h4, h5, h6, h7, h8, this]

/-- The quiet page of the stall witness: no blockers, idle network, no lag,
watchdog frozen for 10^9 ms. -/
def quietObs : PageObs :=
  { challengeRunning := false, bodyHasCloudflare := false,
    passwordInputVisible := false, bodyHasLimitTerm := false,
    bodyHasErrorTerm := false, errorColoredElement := false,
    retryControlVisible := false, stopControlPresent := false,
    loadStatus := .idle, eventLoopLagMs := 0 }

/-- Witness for `waitForCompletion_stall_unreachable`: on the quiet page the
diagnosis is UNKNOWN and the iteration with a 10^9 ms watchdog gap still does
not raise a stall (it keeps polling). -/
theorem waitForCompletion_stall_unreachable_witness :
    diagnoseStall quietObs = .UNKNOWN ∧
    waitStep {} quietObs "txt" "txt" 3 1000000000 ≠
      .raiseStall .UNKNOWN ∧
    waitStep {} quietObs "txt" "txt" 3 1000000000 =
      .keepPolling "txt" 4 false := by
  refine ⟨?_, ?_, ?_⟩
  · exact waitForCompletion_stall_unreachable.2 quietObs rfl rfl rfl rfl rfl
      rfl rfl rfl (by decide)
  · exact waitForCompletion_stall_unreachable.1 {} quietObs "txt" "txt" 3
      1000000000 .UNKNOWN
  · decide

/- ==========================================================================
   Connection orchestrator (src/infra/connection_orchestrator.js)
========================================================================== -/

/-- The `STATES` enum of connection_orchestrator.js lines 66-80. -/
inductive OState where
  | INIT | DETECTING_ENV | WAITING_FOR_BROWSER | CONNECTING_BROWSER
  | RETRY_BROWSER | BROWSER_READY | BROWSER_LOST | WAITING_FOR_PAGE
  | PAGE_SELECTED | VALIDATING_PAGE | PAGE_VALIDATED | PAGE_INVALID | READY
deriving DecidableEq, Repr

/-- Orchestrator configuration (connection_orchestrator.js lines 91-100; the
delays in ℚ because the backoff scales by 0.1 per retry). -/
structure OrchConfig where
  retryDelayMs : ℚ := 3000
  maxRetryDelayMs : ℚ := 15000
  pageScanIntervalMs : ℚ := 4000
  stateHistorySize : Nat := 50
deriving Repr

/-- The external world the orchestrator probes, keyed by a logical clock that
advances on every probe: the outcome of a connect pass over all strategies
and ports, browser connectedness, the page scan, and page closedness. -/
structure World where
  connect : Nat → Option Nat
  connected : Nat → Nat → Bool
  scan : Nat → Option Nat
  closed : Nat → Nat → Bool

/-- The orchestrator's mutable fields (connection_orchestrator.js lines
103-116) plus the probe clock and the total backoff slept. -/
structure OrchState where
  state : OState := .INIT
  browser : Option Nat := none
  page : Option Nat := none
  retryCount : Nat := 0
  stateHistory : List OState := []
  clock : Nat := 0
  sleptMs : ℚ := 0
deriving Repr

/-- `setState` (lines 118-128): re-entering the same state is a no-op; the
history is a ring buffer bounded by `stateHistorySize`. -/
def setState2 (cfg : OrchConfig) (st : OrchState) (next : OState) : OrchState :=
  if st.state = next then st
  else
    let h := st.stateHistory ++ [next]
    { st with state := next,
              stateHistory := if h.length > cfg.stateHistorySize then h.tail else h }

/-- `cleanup` (lines 161-168): drop the handles (listener unsubscription has
no observable effect in this model). -/
def cleanup (st : OrchState) : OrchState :=
  { st with browser := none, page := none }

/-- The backoff of line 236:
`Math.min(retryDelayMs * (1 + retryCount * 0.1), maxRetryDelayMs)`. -/
def retryDelay (base maxd : ℚ) (k : Nat) : ℚ :=
  min (base * (1 + (k : ℚ) / 10)) maxd

/-- The `while (true)` of `ensureBrowser` (lines 210-239): try a connect
pass; on failure the catch increments `retryCount`, enters RETRY_BROWSER,
sleeps the capped backoff and loops.  `none` is fuel exhaustion (the loop
still running); the function itself never throws. -/
def ensureBrowserLoop (w : World) (cfg : OrchConfig) :
    Nat → OrchState → Option OrchState
  | 0, _ => none
  | fuel + 1, st =>
    let st := setState2 cfg st .CONNECTING_BROWSER
    match w.connect st.clock with
    | some b =>
      some (setState2 cfg
        { st with clock := st.clock + 1, browser := some b, retryCount := 0 }
        .BROWSER_READY)
    | none =>
      let st1 := setState2 cfg
        { st with clock := st.clock + 1, retryCount := st.retryCount + 1 }
        .RETRY_BROWSER
      let d := retryDelay cfg.retryDelayMs cfg.maxRetryDelayMs st1.retryCount
      ensureBrowserLoop w cfg fuel { st1 with sleptMs := st1.sleptMs + d }

/-- Body of `ensureBrowser` after the WAITING_FOR_BROWSER transition. -/
def ensureBrowserEntry (w : World) (cfg : OrchConfig) (fuel : Nat)
    (st : OrchState) : Option OrchState :=
  match st.browser with
  | some b =>
    if w.connected st.clock b then
      some (setState2 cfg { st with clock := st.clock + 1 } .BROWSER_READY)
    else ensureBrowserLoop w cfg fuel (cleanup { st with clock := st.clock + 1 })
  | none => ensureBrowserLoop w cfg fuel (cleanup st)

/-- `ensureBrowser` (lines 198-240): reuse a still-connected browser,
otherwise clean up and enter the connect loop. -/
def ensureBrowser (w : World) (cfg : OrchConfig) (fuel : Nat)
    (st : OrchState) : Option OrchState :=
  ensureBrowserEntry w cfg fuel (setState2 cfg st .WAITING_FOR_BROWSER)

/-- The `while (true)` of `ensurePage` (lines 261-286): a lost browser is
thrown (`.error`, rethrown by the catch at lines 279-282); a found page is
selected; otherwise sleep `pageScanIntervalMs` and loop. -/
def ensurePageLoop (w : World) (cfg : OrchConfig) :
    Nat → OrchState → Option (Except String (OrchState × Nat))
  | 0, _ => none
  | fuel + 1, st =>
    match st.browser with
    | none => some (.error "Browser lost during page scan")
    | some b =>
      if !w.connected st.clock b then
        some (.error "Browser lost during page scan")
      else
        let st := { st with clock := st.clock + 1 }
        match w.scan st.clock with
        | some p =>
          some (.ok (setState2 cfg
            { st with clock := st.clock + 1, page := some p } .PAGE_SELECTED, p))
        | none =>
          let d := cfg.pageScanIntervalMs
          ensurePageLoop w cfg fuel
            { st with clock := st.clock + 1, sleptMs := st.sleptMs + d }

/-- Body of `ensurePage` after the WAITING_FOR_PAGE transition. -/
def ensurePageEntry (w : World) (cfg : OrchConfig) (fuel : Nat)
    (st : OrchState) : Option (Except String (OrchState × Nat)) :=
  match st.page with
  | some p =>
    if !w.closed st.clock p then
      some (.ok (setState2 cfg { st with clock := st.clock + 1 } .PAGE_SELECTED, p))
    else ensurePageLoop w cfg fuel { st with clock := st.clock + 1 }
  | none => ensurePageLoop w cfg fuel st

/-- `ensurePage` (lines 252-286): reuse a still-open selected page, else
scan. -/
def ensurePage (w : World) (cfg : OrchConfig) (fuel : Nat) (st : OrchState) :
    Option (Except String (OrchState × Nat)) :=
  ensurePageEntry w cfg fuel (setState2 cfg st .WAITING_FOR_PAGE)

/-- `validatePage` (lines 288-300): a closed page is caught internally and
reported as `false` with the page dropped; otherwise PAGE_VALIDATED. -/
def validatePage (w : World) (cfg : OrchConfig) (st : OrchState) (p : Nat) :
    Bool × OrchState :=
  let st := setState2 cfg st .VALIDATING_PAGE
  if w.closed st.clock p then
    (false, setState2 cfg { st with clock := st.clock + 1, page := none } .PAGE_INVALID)
  else
    (true, setState2 cfg { st with clock := st.clock + 1 } .PAGE_VALIDATED)

/-- The recovery loop of `acquireContext` (lines 304-322): any error thrown
by a phase is caught, a one-second sleep follows, and the cycle restarts;
only a validated page returns. -/
def acquireContextLoop (w : World) (cfg : OrchConfig) :
    Nat → OrchState → Option (Except String (OrchState × Option Nat × Option Nat))
  | 0, _ => none
  | fuel + 1, st =>
    match ensureBrowser w cfg (fuel + 1) st with
    | none => none
    | some st1 =>
      match ensurePage w cfg (fuel + 1) st1 with
      | none => none
      | some (.error _) =>
        acquireContextLoop w cfg fuel
          { st1 with clock := st1.clock + 1, sleptMs := st1.sleptMs + 1000 }
      | some (.ok (st2, p)) =>
        match validatePage w cfg st2 p with
        | (true, st3) =>
          some (.ok (setState2 cfg st3 .READY, st3.browser, st3.page))
        | (false, st3) => acquireContextLoop w cfg fuel st3

/-- `acquireContext` (lines 304-322), after `detectEnvironment`. -/
def acquireContext (w : World) (cfg : OrchConfig) (fuel : Nat)
    (st : OrchState) : Option (Except String (OrchState × Option Nat × Option Nat)) :=
  acquireContextLoop w cfg fuel (setState2 cfg st .DETECTING_ENV)

theorem setState2_page (cfg : OrchConfig) (st : OrchState) (s : OState) :
    (setState2 cfg st s).page = st.page := by
  unfold setState2
  split <;> rfl

theorem validatePage_true_page (w : World) (cfg : OrchConfig)
    (st : OrchState) (p : Nat) (st3 : OrchState)
    (h : validatePage w cfg st p = (true, st3)) :
    st3.page = st.page ∧
    w.closed (setState2 cfg st .VALIDATING_PAGE).clock p = false := by
  unfold validatePage at h
  by_cases hc : w.closed (setState2 cfg st .VALIDATING_PAGE).clock p
  · rw [if_pos hc] at h
    cases h
  · rw [if_neg hc] at h
    have h2 := congrArg Prod.snd h
    simp only at h2
    refine ⟨?_, by simpa using hc⟩
    rw [← h2, setState2_page]
    exact setState2_page cfg st .VALIDATING_PAGE

theorem ensurePageLoop_page (w : World) (cfg : OrchConfig) :
    ∀ (fuel : Nat) (st st2 : OrchState) (p : Nat),
      ensurePageLoop w cfg fuel st = some (.ok (st2, p)) →
      st2.page = some p := by
  intro fuel
  induction fuel with
  | zero => intro st st2 p h; cases h
  | succ n ih =>
    intro st st2 p h
    unfold ensurePageLoop at h
    rcases hb : st.browser with _ | b
    · rw [hb] at h
      simp at h
    · rw [hb] at h
      dsimp only at h
      by_cases hcn : w.connected st.clock b
      · rw [hcn] at h
        rw [if_neg (by simp)] at h
        try dsimp only at h
        rcases hs : w.scan (st.clock + 1) with _ | p0
        · rw [hs] at h
          exact ih _ st2 p h
        · rw [hs] at h
          simp only [Option.some.injEq, Except.ok.injEq, Prod.mk.injEq] at h
          rcases h with ⟨h1, h2⟩
          rw [← h1, setState2_page]
          simp [h2]
      · have hcn2 : w.connected st.clock b = false := by
          simpa using hcn
        rw [hcn2] at h
        rw [if_pos (by simp)] at h
        simp at h

theorem ensurePageEntry_page (w : World) (cfg : OrchConfig) (fuel : Nat)
    (st st2 : OrchState) (p : Nat)
    (h : ensurePageEntry w cfg fuel st = some (.ok (st2, p))) :
    st2.page = some p := by
  unfold ensurePageEntry at h
  rcases hsp : st.page with _ | p0
  · rw [hsp] at h
    exact ensurePageLoop_page w cfg fuel _ st2 p h
  · rw [hsp] at h
    dsimp only at h
    by_cases hcl : w.closed st.clock p0
    · rw [hcl] at h
      rw [if_neg (by simp)] at h
      exact ensurePageLoop_page w cfg fuel _ st2 p h
    · have hcl2 : w.closed st.clock p0 = false := by simpa using hcl
      rw [hcl2] at h
      rw [if_pos (by simp)] at h
      simp only [Option.some.injEq, Except.ok.injEq, Prod.mk.injEq] at h
      rcases h with ⟨h1, h2⟩
      rw [← h1, setState2_page]
      show some p0 = some p
      rw [h2]

theorem ensurePage_page (w : World) (cfg : OrchConfig) (fuel : Nat)
    (st st2 : OrchState) (p : Nat)
    (h : ensurePage w cfg fuel st = some (.ok (st2, p))) :
    st2.page = some p :=
  ensurePageEntry_page w cfg fuel _ st2 p h

theorem acquireContextLoop_no_raise (w : World) (cfg : OrchConfig) :
    ∀ (fuel : Nat) (st : OrchState),
      (∀ e, acquireContextLoop w cfg fuel st ≠ some (.error e)) ∧
      (∀ stf b pg, acquireContextLoop w cfg fuel st = some (.ok (stf, b, pg)) →
        ∃ p c, pg = some p ∧ w.closed c p = false) := by
  intro fuel
  induction fuel with
  | zero =>
    intro st
    constructor
    · intro e h; cases h
    · intro stf b pg h; cases h
  | succ n ih =>
    intro st
    constructor
    · intro e
      unfold acquireContextLoop
      rcases hb : ensureBrowser w cfg (n + 1) st with _ | st1
      · simp
      · try dsimp only
        rcases hp : ensurePage w cfg (n + 1) st1 with _ | r
        · simp
        · try dsimp only
          rcases r with e2 | ⟨st2, p⟩
          · try dsimp only
            exact (ih _).1 e
          · try dsimp only
            rcases hv : validatePage w cfg st2 p with ⟨ok, st3⟩
            cases ok
            · try dsimp only
              exact (ih st3).1 e
            · try dsimp only
              simp
    · intro stf b pg
      unfold acquireContextLoop
      rcases hb : ensureBrowser w cfg (n + 1) st with _ | st1
      · intro h; cases h
      · try dsimp only
        rcases hp : ensurePage w cfg (n + 1) st1 with _ | r
        · intro h; cases h
        · try dsimp only
          rcases r with e2 | ⟨st2, p⟩
          · try dsimp only
            exact (ih _).2 stf b pg
          · try dsimp only
            rcases hv : validatePage w cfg st2 p with ⟨ok, st3⟩
            cases ok
            · try dsimp only
              exact (ih st3).2 stf b pg
            · try dsimp only
              intro h
              have h3 := Option.some.inj h
              have h4 := Except.ok.inj h3
              have hpg : pg = st3.page := by
                have h5 := congrArg (fun x => x.2.2) h4
                simp only at h5
                exact h5.symm
              have hvp := validatePage_true_page w cfg st2 p st3 hv
              have hpage : st2.page = some p :=
                ensurePage_page w cfg (n + 1) st1 st2 p hp
              exact ⟨p, (setState2 cfg st2 .VALIDATING_PAGE).clock,
                by rw [hpg, hvp.1, hpage], hvp.2⟩

/-- C7 theorem.  `acquireContext` never surfaces an error to its caller:
every run either is still looping (fuel exhausted) or returns a
browser/page context whose page was just validated (observed not closed);
and the browser-retry backoff delay is nondecreasing in the consecutive
retry count and clamped by the configured maximum. -/
theorem acquireContext_contract (w : World) (cfg : OrchConfig) (fuel : Nat)
    (st : OrchState) (hbase : 0 ≤ cfg.retryDelayMs) :
    (∀ e, acquireContext w cfg fuel st ≠ some (.error e)) ∧
    (∀ stf b pg, acquireContext w cfg fuel st = some (.ok (stf, b, pg)) →
      ∃ p c, pg = some p ∧ w.closed c p = false) ∧
    (∀ k, retryDelay cfg.retryDelayMs cfg.maxRetryDelayMs k ≤
      retryDelay cfg.retryDelayMs cfg.maxRetryDelayMs (k + 1)) ∧
    (∀ k, retryDelay cfg.retryDelayMs cfg.maxRetryDelayMs k ≤
      cfg.maxRetryDelayMs) := by
  refine ⟨?_, ?_, ?_, ?_⟩
  · intro e
    unfold acquireContext
    exact (acquireContextLoop_no_raise w cfg fuel _).1 e
  · intro stf b pg h
    unfold acquireContext at h
    exact (acquireContextLoop_no_raise w cfg fuel _).2 stf b pg h
  · intro k
    unfold retryDelay
    refine min_le_min ?_ le_rfl
    refine mul_le_mul_of_nonneg_left ?_ hbase
    have hk : (k : ℚ) ≤ ((k + 1 : Nat) : ℚ) := by push_cast; linarith
    linarith
  · intro k
    unfold retryDelay
    exact min_le_right _ _

/-- A world where the browser and page are immediately available and live. -/
def readyWorld : World :=
  { connect := fun _ => some 1, connected := fun _ _ => true,
    scan := fun _ => some 2, closed := fun _ _ => false }

/-- Witness for `acquireContext_contract` on `readyWorld` with the default
configuration: no error surfaces and the first two backoff delays are
ordered and clamped. -/
theorem acquireContext_contract_witness :
    (∀ e, acquireContext readyWorld {} 2 {} ≠ some (.error e)) ∧
    retryDelay ({} : OrchConfig).retryDelayMs ({} : OrchConfig).maxRetryDelayMs 0 ≤
      retryDelay ({} : OrchConfig).retryDelayMs ({} : OrchConfig).maxRetryDelayMs 1 ∧
    retryDelay ({} : OrchConfig).retryDelayMs ({} : OrchConfig).maxRetryDelayMs 99 ≤
      ({} : OrchConfig).maxRetryDelayMs := by
  have h := acquireContext_contract readyWorld {} 2 {} (by norm_num)
  exact ⟨h.1, h.2.2.1 0, h.2.2.2 99⟩

end Agent
